import Mathlib

/-!
Verification of the dds helper engine (src/helper/engine.cpp): the
publish/subscribe dispatch engine with its per-request context, and a model
of the WAF subscriber contract exercised by the engine tests.

The first part is a shallow embedding of `dds::engine::subscribe` and
`dds::engine::context::publish` from the source.  Subscriber identities
(`subscriber::ptr`) are modelled as natural numbers; the ordered identity
set `std::set<subscriber::ptr>` becomes a sorted duplicate-free list; a
subscriber listener's behaviour on a call is an explicit function returning
`Except` (a thrown exception becomes an `error` value).  Ghost fields
(`invoked`, `diags`) instrument the dispatch loop: `invoked` records each
`listener->call` site executed, `diags` records each `SPDLOG_ERROR`
diagnostic emitted from the catch block.
-/

namespace dds

/-- Parameter tree: recursive tagged value (map / array / scalar).  The
engine only inspects `is_map`, the entry count and each entry's key; the
WAF model traverses the whole tree. -/
inductive parameter where
  | map (entries : List (String × parameter))
  | arr (items : List parameter)
  | str (s : String)
deriving Repr

/-- The `parameter::is_map` check used by `publish`. -/
def parameter.is_map : parameter → Bool
  | .map _ => true
  | _ => false

/-- The top-level keys of a published map, in entry order (the loop
`for i < data.size(): data[i].key()`). -/
def parameter.keys : parameter → List String
  | .map entries => entries.map Prod.fst
  | _ => []

/-- Errors of the helper (exception.hpp): `invalid_object` carries a key
path and a message, `timeout_error` is raised on budget exhaustion, and
any other subscriber exception is modelled by `runtime_error`. -/
inductive DdsError where
  | invalid_object (path : String) (msg : String)
  | timeout_error
  | runtime_error (msg : String)
deriving DecidableEq, Repr

/-- Result of a listener call: a numeric severity (`value`, 0 the lowest)
plus opaque serialized match data, as the `result` struct consumed by
`engine::context::publish` (`res.value` comparisons and default
construction are all the engine uses). -/
structure result where
  value : Nat
  data : List String
deriving DecidableEq, Repr

/-- First-match lookup in a string-keyed association table (models
`std::map::find`; the table keeps its keys unique). -/
def lookupTable {α : Type} : List (String × α) → String → Option α
  | [], _ => none
  | (k, v) :: rest, key => if k = key then some v else lookupTable rest key

/-- One step of `engine::subscribe`: append the subscriber under an
address, creating the entry when absent (`emplace` / `push_back`). -/
def tablePush : List (String × List Nat) → String → Nat → List (String × List Nat)
  | [], addr, s => [(addr, [s])]
  | (k, l) :: rest, addr, s =>
      if k = addr then (k, l ++ [s]) :: rest else (k, l) :: tablePush rest addr s

/-- The engine: the address → subscriber-list registry. -/
structure engine where
  subscriptions : List (String × List Nat)
deriving Repr

/-- `dds::engine::subscribe`: registers a subscriber under every address
it declares interest in. -/
def subscribe (e : engine) (sub : Nat) (addrs : List String) : engine :=
  { e with subscriptions := addrs.foldl (fun t a => tablePush t a sub) e.subscriptions }

/-- The per-request context: a view of the engine's subscription table,
the memoized listener cache (`listeners_`, keyed by subscriber identity)
and the retained published batches (`prev_published_params_`). -/
structure context where
  subscriptions : List (String × List Nat)
  listeners : List Nat
  prev_published_params : List parameter
deriving Repr

/-- `engine::get_context` behaviour relevant here: a fresh context over
the current subscription table. -/
def engine.create_context (e : engine) : context :=
  { subscriptions := e.subscriptions, listeners := [], prev_published_params := [] }

/-- Insertion into `std::set<subscriber::ptr>`: the set iterates in
subscriber-identity order and collapses duplicates. -/
def setInsert (x : Nat) : List Nat → List Nat
  | [] => [x]
  | y :: ys =>
      if x < y then x :: y :: ys
      else if x = y then y :: ys
      else y :: setInsert x ys

/-- The deduplicated subscriber set collected by `publish` from the
top-level keys of the published map: for each key found in the
subscription table, every subscriber of that address is inserted into the
identity set. -/
def computeSubSet (subs : List (String × List Nat)) (keys : List String) : List Nat :=
  keys.foldl
    (fun acc k =>
      match lookupTable subs k with
      | none => acc
      | some l => l.foldl (fun a s => setInsert s a) acc)
    []

/-- The subscriber set a context's `publish` dispatches to for a batch. -/
def subscriberSet (c : context) (p : parameter) : List Nat :=
  computeSubSet c.subscriptions p.keys

/-- The aggregation step `if (call_res.value > res.value) res = call_res`:
a later result replaces the current one only when strictly more severe. -/
def keepHigher (r cr : result) : result :=
  if r.value < cr.value then cr else r

/-- State threaded through the dispatch loop of `publish`, with the ghost
instrumentation fields `invoked` and `diags`. -/
structure DispatchState where
  listeners : List Nat
  res : result
  invoked : List Nat
  diags : List DdsError
deriving Repr

/-- One iteration of the dispatch loop in `engine::context::publish`:
memoize the subscriber's listener, call it, and either aggregate the
returned result or record the thrown error as a diagnostic and move on. -/
def dispatchStep (behavior : Nat → parameter → Nat → Except DdsError result)
    (data : parameter) (timeout : Nat) (st : DispatchState) (sub : Nat) :
    DispatchState :=
  let ls := if sub ∈ st.listeners then st.listeners else st.listeners ++ [sub]
  match behavior sub data timeout with
  | .ok call_res =>
      { listeners := ls, res := keepHigher st.res call_res,
        invoked := st.invoked ++ [sub], diags := st.diags }
  | .error e =>
      { listeners := ls, res := st.res,
        invoked := st.invoked ++ [sub], diags := st.diags ++ [e] }

/-- Everything observable about one `publish` call: the context after the
call, the returned (or thrown) result, and the ghost instrumentation. -/
structure publishOutcome where
  ctx : context
  res : Except DdsError result
  invoked : List Nat
  diags : List DdsError
deriving Repr

/-- `dds::engine::context::publish`: take ownership of the batch by
appending it to `prev_published_params_` first, then fail unless it is a
map, then dispatch to the deduplicated subscriber set, aggregating
successful results by highest severity and recording failures. -/
def publish (behavior : Nat → parameter → Nat → Except DdsError result)
    (c : context) (p : parameter) (timeout : Nat) : publishOutcome :=
  let c1 : context := { c with prev_published_params := c.prev_published_params ++ [p] }
  if p.is_map then
    let subs := computeSubSet c.subscriptions p.keys
    let st := subs.foldl (dispatchStep behavior p timeout)
      { listeners := c1.listeners, res := ⟨0, []⟩, invoked := [], diags := [] }
    { ctx := { c1 with listeners := st.listeners }, res := .ok st.res,
      invoked := st.invoked, diags := st.diags }
  else
    { ctx := c1, res := .error (.invalid_object "." "not a map"),
      invoked := [], diags := [] }

/-- Aggregation of a list of successful listener results, exactly as the
loop folds them into the default-constructed `result res`. -/
def aggregateResults (rs : List result) : result :=
  rs.foldl keepHigher ⟨0, []⟩

/-- The highest severity among a list of results (0 when empty). -/
def maxValue (rs : List result) : Nat :=
  rs.foldl (fun m r => max m r.value) 0

/-- The successful listener results a publish call collects from a
subscriber set, in dispatch order. -/
def okResults (behavior : Nat → parameter → Nat → Except DdsError result)
    (subs : List Nat) (p : parameter) (timeout : Nat) : List result :=
  subs.filterMap (fun s => (behavior s p timeout).toOption)

/-- The errors thrown by listeners during a publish call over a subscriber
set, in dispatch order. -/
def errorsOf (behavior : Nat → parameter → Nat → Except DdsError result)
    (subs : List Nat) (p : parameter) (timeout : Nat) : List DdsError :=
  subs.filterMap (fun s =>
    match behavior s p timeout with
    | .ok _ => none
    | .error e => some e)

/-!
The WAF subscriber.  Its implementation (subscriber/waf.hpp) is not part
of the sources here — only the engine tests that exercise it — so the
definitions below are modelled from the specification of the detection
subscriber contract: rule matching over published batches, rule-data
driven operators, obfuscation of matched values before serialization,
action resolution against an action table with per-key default merging,
and the immutable `update` protocol for hot rule-data reloads.
-/

/-- Modelled from the spec: the matching patterns the tested rulesets use
(the compiled matching library is an external dependency; rule semantics
are consumed as opaque, so only the pattern shapes exercised by the tests
are represented: an anchored head pattern, an unanchored search pattern
and the match-everything pattern). -/
inductive RegexPat where
  | startsWith (s : String)
  | contains (s : String)
  | anyMatch
deriving DecidableEq, Repr

/-- Unanchored substring search over character lists. -/
def listContainsSub (pat : List Char) : List Char → Bool
  | [] => pat.isEmpty
  | c :: t => pat.isPrefixOf (c :: t) || listContainsSub pat t

/-- Unanchored substring search over strings. -/
def strContainsSub (hay pat : String) : Bool :=
  listContainsSub pat.data hay.data

/-- Whether a pattern matches a scalar value. -/
def matchPat : RegexPat → String → Bool
  | .startsWith s, v => s.data.isPrefixOf v.data
  | .contains s, v => strContainsSub v s
  | .anyMatch, _ => true

/-- Modelled from the spec: the obfuscation policy — an optional key
pattern and an optional value pattern, applied independently. -/
structure Obfuscator where
  keyPat : Option RegexPat
  valPat : Option RegexPat
deriving DecidableEq, Repr

/-- The fixed redaction placeholder written in place of sensitive matched
values. -/
def redactedMarker : String := "<Redacted>"

/-- Whether an optional obfuscation pattern matches a string. -/
def optMatches : Option RegexPat → String → Bool
  | none, _ => false
  | some pat, s => matchPat pat s

/-- Modelled from the spec: before a matched value is serialized into the
Event, if the originating key or the value itself matches the configured
obfuscation pattern, the value is replaced with the redaction placeholder. -/
def obfuscateValue (ob : Obfuscator) (key v : String) : String :=
  if optMatches ob.keyPat key || optMatches ob.valPat v then redactedMarker else v

/-- Modelled from the spec: a rule condition — one input address and one
operator, which is either a pattern match or an `ip_match` against a named
rule-data set. -/
inductive CondOp where
  | matchRegex (pat : RegexPat)
  | ipMatch (dataId : String)
deriving DecidableEq, Repr

structure Condition where
  address : String
  op : CondOp
deriving DecidableEq, Repr

/-- Modelled from the spec: a rule — conditions that must all match, and
the `on_match` action identifiers of the rule. -/
structure Rule where
  id : String
  conditions : List Condition
  onMatch : List String
deriving DecidableEq, Repr

/-- Action types: the recognized blocking/redirect families plus `invalid`
for unrecognized identifiers or action types. -/
inductive ActionType where
  | block
  | redirect
  | invalid
deriving DecidableEq, Repr

/-- An action: a resolved type plus string parameters. -/
structure WafAction where
  type : ActionType
  parameters : List (String × String)
deriving DecidableEq, Repr

/-- Modelled from the spec: a WAF subscriber instance — an immutable
ruleset snapshot: rules, the named rule-data sets (each a list of
value/expiration entries), the action table (id → declared type and
parameters) and the obfuscation policy. -/
structure WafInstance where
  rules : List Rule
  ruleData : List (String × List (String × Nat))
  actions : List (String × (String × List (String × String)))
  obfuscator : Obfuscator
deriving DecidableEq, Repr

/-- Modelled from the spec: whether a scalar satisfies a condition
operator — a pattern match, or membership of an unexpired entry of the
named rule-data set. -/
def scalarMatches (inst : WafInstance) (now : Nat) (op : CondOp) (v : String) : Bool :=
  match op with
  | .matchRegex pat => matchPat pat v
  | .ipMatch dataId =>
      match lookupTable inst.ruleData dataId with
      | none => false
      | some entries => entries.any (fun e => e.1 == v && decide (now < e.2))


mutual

/-- Modelled from the spec: depth-first search for the first scalar in a
parameter subtree satisfying the operator, returning the originating key
(the innermost map key on the path, or the address itself for a top-level
scalar) together with the matched value. -/
def findCondMatch (inst : WafInstance) (now : Nat) (op : CondOp) :
    String → parameter → Option (String × String)
  | key, .str s => if scalarMatches inst now op s then some (key, s) else none
  | key, .arr items => findCondMatchList inst now op key items
  | key, .map entries => findCondMatchEntries inst now op key entries

/-- Depth-first search over the items of an array node, keeping the
enclosing key. -/
def findCondMatchList (inst : WafInstance) (now : Nat) (op : CondOp) :
    String → List parameter → Option (String × String)
  | _, [] => none
  | key, x :: xs =>
      match findCondMatch inst now op key x with
      | some m => some m
      | none => findCondMatchList inst now op key xs

/-- Depth-first search over the entries of a map node, each child
searched under its own key. -/
def findCondMatchEntries (inst : WafInstance) (now : Nat) (op : CondOp) :
    String → List (String × parameter) → Option (String × String)
  | _, [] => none
  | key, (k, v) :: rest =>
      match findCondMatch inst now op k v with
      | some m => some m
      | none => findCondMatchEntries inst now op key rest

end

/-- Modelled from the spec: evaluating one condition against a published
batch — look up the condition's address among the batch's top-level
entries and search its subtree. -/
def evalCondition (inst : WafInstance) (now : Nat)
    (data : List (String × parameter)) (c : Condition) : Option (String × String) :=
  match lookupTable data c.address with
  | none => none
  | some sub => findCondMatch inst now c.op c.address sub

/-- Modelled from the spec: a rule fires when every condition matches; the
match fragments are the per-condition originating key / matched value
pairs. -/
def evalRule (inst : WafInstance) (now : Nat)
    (data : List (String × parameter)) (r : Rule) :
    Option (List (String × String)) :=
  r.conditions.mapM (evalCondition inst now data)

/-- Default parameters of the recognized blocking action family:
status_code 403, grpc_status_code 10, response type auto. -/
def blockDefaults : List (String × String) :=
  [("status_code", "403"), ("grpc_status_code", "10"), ("type", "auto")]

/-- Modelled from the spec: per-key default merge — parameters supplied by
the action entry override the defaults key by key, unspecified keys keep
the default, and extra entry parameters are preserved. -/
def mergeParams (defaults overrides : List (String × String)) :
    List (String × String) :=
  defaults.map (fun d => (d.1, ((lookupTable overrides d.1).getD d.2)))
    ++ overrides.filter (fun o => (lookupTable defaults o.1).isNone)

/-- Modelled from the spec: resolving one `on_match` identifier against
the action table — a `block_request` entry yields a block action with
per-key default merging; any other declared type yields an `invalid`
action carrying the raw parameters; an identifier with no entry resolves
to the built-in block action with pure defaults when it is `block`, and
otherwise to an `invalid` action. -/
def resolveAction (inst : WafInstance) (id : String) : WafAction :=
  match lookupTable inst.actions id with
  | some (tyStr, ps) =>
      if tyStr = "block_request" then ⟨.block, mergeParams blockDefaults ps⟩
      else ⟨.invalid, ps⟩
  | none =>
      if id = "block" then ⟨.block, blockDefaults⟩
      else ⟨.invalid, []⟩

/-- Keep the first action of each resolved type (the event's action set is
deduplicated by resolved type). -/
def dedupActions (as : List WafAction) : List WafAction :=
  as.foldl (fun acc a =>
    if acc.any (fun b => decide (b.type = a.type)) then acc else acc ++ [a]) []

/-- The event a listener call appends to: one serialized match document
per firing rule (each a list of serialized, obfuscated parameter values),
plus the derived actions. -/
structure WafEvent where
  fragments : List (List String)
  actions : List WafAction
deriving DecidableEq, Repr

/-- Modelled from the spec: one listener call over a published batch —
every firing rule contributes a serialized match document whose values
went through obfuscation, and the event's actions are the deduplicated
resolved actions of all firing rules. -/
def wafCall (inst : WafInstance) (now : Nat)
    (data : List (String × parameter)) : WafEvent :=
  let fired := inst.rules.filterMap
    (fun r => (evalRule inst now data r).map (fun ms => (r, ms)))
  { fragments := fired.map
      (fun f => f.2.map (fun m => obfuscateValue inst.obfuscator m.1 m.2)),
    actions := dedupActions
      (fired.flatMap (fun f => f.1.onMatch.map (resolveAction inst))) }

/-- Parse a decimal digit string to a natural number (0 on other
input). -/
def digitsToNat (s : String) : Nat :=
  s.data.foldl (fun n c => if 48 ≤ c.toNat && c.toNat ≤ 57
    then n * 10 + (c.toNat - 48) else n) 0

/-- Parse one rule-data `data` entry `{value, expiration}`. -/
def parseDataEntry : parameter → Option (String × Nat)
  | .map entries =>
      match lookupTable entries "value", lookupTable entries "expiration" with
      | some (.str v), some (.str e) => some (v, digitsToNat e)
      | _, _ => none
  | _ => none

/-- Parse one `rules_data` item `{id, type, data}`. -/
def parseRulesDataItem : parameter → Option (String × List (String × Nat)) :=
  fun p =>
    match p with
    | .map entries =>
        match lookupTable entries "id", lookupTable entries "data" with
        | some (.str id), some (.arr ds) => some (id, ds.filterMap parseDataEntry)
        | _, _ => none
    | _ => none

/-- Replace or insert a named rule-data set. -/
def tableSet {α : Type} : List (String × α) → String → α → List (String × α)
  | [], key, v => [(key, v)]
  | (k, w) :: rest, key, v =>
      if k = key then (k, v) :: rest else (k, w) :: tableSet rest key v

/-- Modelled from the spec: `update` — validate that the document is a map
whose `rules_data` key holds a sequence, fail with `invalid_object`
otherwise, and on success return a brand-new instance whose named
rule-data sets are merged/replaced; the original instance is untouched. -/
def wafUpdate (inst : WafInstance) (doc : parameter) :
    Except DdsError WafInstance :=
  match doc with
  | .map entries =>
      match lookupTable entries "rules_data" with
      | some (.arr items) =>
          let parsed := items.filterMap parseRulesDataItem
          .ok { inst with
                ruleData := parsed.foldl (fun rd e => tableSet rd e.1 e.2) inst.ruleData }
      | _ => .error (.invalid_object "." "invalid rules_data")
  | _ => .error (.invalid_object "." "not a map")

/-!
Concrete fixtures: the rulesets, inputs and behaviours exercised by the
engine tests (WafTest.ValidRunMonitorObfuscated, WafTest.UpdateRuleData,
WafTest.UpdateInvalid, WafTest.ActionsAreSentAndParsed) and small engine
configurations used as witnesses for the publish theorems.
-/

/-- `rule1` of the test ruleset `waf_rule`: arg1 must match `^string.*`
and arg2 must match `.*`; action `record`, no `on_match` identifiers. -/
def rule1 : Rule :=
  ⟨"1", [⟨"arg1", .matchRegex (.startsWith "string")⟩,
         ⟨"arg2", .matchRegex .anyMatch⟩], []⟩

/-- The obfuscating WAF of WafTest.ValidRunMonitorObfuscated: key pattern
`password`, value pattern `string 3`. -/
def obfWaf : WafInstance :=
  ⟨[rule1], [], [], ⟨some (.contains "password"), some (.contains "string 3")⟩⟩

/-- The published batch of WafTest.ValidRunMonitorObfuscated. -/
def obfInput : List (String × parameter) :=
  [("arg1", .map [("password", .str "string 1")]), ("arg2", .str "string 3")]

/-- The rule of `waf_rule_with_data`: `ip_match` on `http.client_ip`
against rule-data id `blocked_ips`, with `on_match: ["block"]`. -/
def blockedIpsRule : Rule :=
  ⟨"blk-001-001", [⟨"http.client_ip", .ipMatch "blocked_ips"⟩], ["block"]⟩

/-- The WAF built from `waf_rule_with_data`: no rule-data yet. -/
def wafWithData : WafInstance := ⟨[blockedIpsRule], [], [], ⟨none, none⟩⟩

/-- The batch `{"http.client_ip": "192.168.1.1"}`. -/
def ipBatch : List (String × parameter) :=
  [("http.client_ip", .str "192.168.1.1")]

/-- The rule-data update document of WafTest.UpdateRuleData. -/
def updateDoc : parameter :=
  .map [("rules_data", .arr
    [.map [("id", .str "blocked_ips"),
           ("type", .str "data_with_expiration"),
           ("data", .arr [.map [("value", .str "192.168.1.1"),
                                ("expiration", .str "9999999999")]])]])]

/-- The instance produced by the update: `blocked_ips` now lists
192.168.1.1 with a far-future expiration. -/
def wafUpdated : WafInstance :=
  { wafWithData with ruleData := [("blocked_ips", [("192.168.1.1", 9999999999)])] }

/-- The rule of WafTest.ActionsAreSentAndParsed: `on_match: ["custom"]`. -/
def customRule : Rule :=
  ⟨"blk-001-001", [⟨"http.client_ip", .ipMatch "blocked_ips"⟩], ["custom"]⟩

/-- First ActionsAreSentAndParsed scenario: a `block_request` entry with
custom parameters overriding every default plus an extra key. -/
def wafCustom : WafInstance :=
  ⟨[customRule], [("blocked_ips", [("192.168.1.1", 9999999999)])],
   [("custom", ("block_request",
      [("status_code", "123"), ("grpc_status_code", "321"),
       ("type", "json"), ("custom_param", "foo")]))],
   ⟨none, none⟩⟩

/-- Second scenario: a `block_request` entry with no parameters. -/
def wafCustomNoParams : WafInstance :=
  { wafCustom with actions := [("custom", ("block_request", []))] }

/-- An engine context with two subscribers registered under key `k`. -/
def ctxTwo : context := ⟨[("k", [1, 2])], [], []⟩

/-- An engine context with one subscriber under address `a`. -/
def ctxA : context := ⟨[("a", [1])], [], []⟩

/-- An empty context. -/
def ctxEmpty : context := ⟨[], [], []⟩

/-- The batch `{"k": "v"}`. -/
def pK : parameter := .map [("k", .str "v")]

/-- The batch `{"b": "v"}`, whose key has no subscription. -/
def pB : parameter := .map [("b", .str "v")]

/-- A behaviour where subscriber 1 returns a severity-2 result and every
other subscriber a severity-1 result. -/
def bhvTwoSev : Nat → parameter → Nat → Except DdsError result :=
  fun s _ _ => .ok (if s = 1 then ⟨2, ["a"]⟩ else ⟨1, ["b"]⟩)

/-- A behaviour where subscriber 1 throws `timeout_error` and every other
subscriber returns a severity-1 result. -/
def bhvT : Nat → parameter → Nat → Except DdsError result :=
  fun s _ _ => if s = 1 then .error .timeout_error else .ok ⟨1, ["r2"]⟩

/-- The same behaviour with subscriber 1 returning an empty result instead
of timing out. -/
def bhvN : Nat → parameter → Nat → Except DdsError result :=
  fun s _ _ => if s = 1 then .ok ⟨0, []⟩ else .ok ⟨1, ["r2"]⟩

/-- A behaviour where subscriber 1 throws a runtime error and every other
subscriber returns a severity-2 result. -/
def bhvFail : Nat → parameter → Nat → Except DdsError result :=
  fun s _ _ => if s = 1 then .error (.runtime_error "boom") else .ok ⟨2, ["m"]⟩

/-- A behaviour returning the same severity-1 result everywhere. -/
def bhvOne : Nat → parameter → Nat → Except DdsError result :=
  fun _ _ _ => .ok ⟨1, []⟩

/-!
Helper lemmas: the dispatch loop of `publish` as a fold over the collected
successful results, and the order-theoretic behaviour of the severity
aggregation step.
-/

theorem foldl_dispatch_res (behavior : Nat → parameter → Nat → Except DdsError result)
    (p : parameter) (t : Nat) (subs : List Nat) :
    ∀ st : DispatchState,
      (subs.foldl (dispatchStep behavior p t) st).res
        = (okResults behavior subs p t).foldl keepHigher st.res := by
  induction subs with
  | nil => intro st; simp [okResults]
  | cons s ss ih =>
      intro st
      rw [List.foldl_cons, ih]
      cases h : behavior s p t with
      | ok r => simp [okResults, List.filterMap_cons, h, Except.toOption, dispatchStep]
      | error e => simp [okResults, List.filterMap_cons, h, Except.toOption, dispatchStep]

theorem foldl_dispatch_invoked (behavior : Nat → parameter → Nat → Except DdsError result)
    (p : parameter) (t : Nat) (subs : List Nat) :
    ∀ st : DispatchState,
      (subs.foldl (dispatchStep behavior p t) st).invoked = st.invoked ++ subs := by
  induction subs with
  | nil => intro st; simp
  | cons s ss ih =>
      intro st
      rw [List.foldl_cons, ih]
      cases h : behavior s p t <;> simp [dispatchStep, h]

theorem foldl_dispatch_diags (behavior : Nat → parameter → Nat → Except DdsError result)
    (p : parameter) (t : Nat) (subs : List Nat) :
    ∀ st : DispatchState,
      (subs.foldl (dispatchStep behavior p t) st).diags
        = st.diags ++ errorsOf behavior subs p t := by
  induction subs with
  | nil => intro st; simp [errorsOf]
  | cons s ss ih =>
      intro st
      rw [List.foldl_cons, ih]
      cases h : behavior s p t <;> simp [dispatchStep, h, errorsOf, List.filterMap_cons]

theorem keepHigher_value (r0 r : result) :
    (keepHigher r0 r).value = max r0.value r.value := by
  by_cases h : r0.value < r.value <;> simp [keepHigher, h] <;> omega

theorem foldl_keepHigher_value (rs : List result) :
    ∀ r0 : result,
      (rs.foldl keepHigher r0).value
        = rs.foldl (fun m r => max m r.value) r0.value := by
  induction rs with
  | nil => intro r0; simp
  | cons r rs ih =>
      intro r0
      rw [List.foldl_cons, List.foldl_cons, ih, keepHigher_value]

theorem le_foldl_keepHigher (rs : List result) :
    ∀ r0 : result, r0.value ≤ (rs.foldl keepHigher r0).value := by
  induction rs with
  | nil => intro r0; simp
  | cons r rs ih =>
      intro r0
      rw [List.foldl_cons]
      refine le_trans ?_ (ih (keepHigher r0 r))
      rw [keepHigher_value]; omega

theorem mem_le_foldl_keepHigher (rs : List result) :
    ∀ (r0 r : result), r ∈ rs → r.value ≤ (rs.foldl keepHigher r0).value := by
  induction rs with
  | nil => intro r0 r hr; cases hr
  | cons x rs ih =>
      intro r0 r hr
      rw [List.foldl_cons]
      cases hr with
      | head =>
          refine le_trans ?_ (le_foldl_keepHigher rs (keepHigher r0 x))
          rw [keepHigher_value]; omega
      | tail _ hmem => exact ih (keepHigher r0 x) r hmem

theorem foldl_keepHigher_stable (rs : List result) :
    ∀ b : result, (∀ x ∈ rs, x.value ≤ b.value) → rs.foldl keepHigher b = b := by
  induction rs with
  | nil => intro b _; simp
  | cons r rs ih =>
      intro b hb
      have hr : r.value ≤ b.value := hb r (List.mem_cons_self r rs)
      have hstep : keepHigher b r = b := by
        simp [keepHigher, Nat.not_lt.mpr hr]
      rw [List.foldl_cons, hstep]
      exact ih b (fun x hx => hb x (List.mem_cons_of_mem r hx))

theorem foldl_keepHigher_find (rs : List result) :
    ∀ r0 : result, (∃ r ∈ rs, r0.value < r.value) →
      rs.find? (fun r => r.value == (rs.foldl keepHigher r0).value)
        = some (rs.foldl keepHigher r0) := by
  induction rs with
  | nil => rintro r0 ⟨r, hr, _⟩; cases hr
  | cons r rs ih =>
      rintro r0 ⟨x, hx, hlt⟩
      by_cases h1 : r0.value < r.value
      · have hstep : keepHigher r0 r = r := by simp [keepHigher, h1]
        by_cases h2 : ∃ y ∈ rs, r.value < y.value
        · obtain ⟨y, hy, hylt⟩ := h2
          have hAy : y.value ≤ (rs.foldl keepHigher r).value :=
            mem_le_foldl_keepHigher rs r y hy
          have hrA : r.value < (rs.foldl keepHigher r).value :=
            lt_of_lt_of_le hylt hAy
          have hfind := ih r ⟨y, hy, hylt⟩
          rw [List.foldl_cons, hstep,
            List.find?_cons_of_neg _ (by simp; omega), hfind]
        · push_neg at h2
          have hstable : rs.foldl keepHigher r = r :=
            foldl_keepHigher_stable rs r h2
          rw [List.foldl_cons, hstep, hstable,
            List.find?_cons_of_pos _ (by simp)]
      · have hstep : keepHigher r0 r = r0 := by simp [keepHigher, h1]
        have hx' : x ∈ rs := by
          cases hx with
          | head => exact absurd hlt h1
          | tail _ hmem => exact hmem
        have hAx : x.value ≤ (rs.foldl keepHigher r0).value :=
          mem_le_foldl_keepHigher rs r0 x hx'
        have hrA : r.value < (rs.foldl keepHigher r0).value := by
          have hr0 : r.value ≤ r0.value := Nat.not_lt.mp h1
          have : r0.value < (rs.foldl keepHigher r0).value :=
            lt_of_lt_of_le hlt hAx
          omega
        have hfind := ih r0 ⟨x, hx', hlt⟩
        rw [List.foldl_cons, hstep,
          List.find?_cons_of_neg _ (by simp; omega), hfind]

/-!
Shared facts about one `publish` call on a map-shaped batch: the returned
result, the invoked subscribers and the recorded diagnostics, expressed
over the deduplicated subscriber set.
-/

theorem publish_res_eq (behavior : Nat → parameter → Nat → Except DdsError result)
    (c : context) (p : parameter) (t : Nat) (hmap : p.is_map = true) :
    (publish behavior c p t).res
      = .ok (aggregateResults (okResults behavior (subscriberSet c p) p t)) := by
  simp [publish, hmap, subscriberSet, aggregateResults,
    foldl_dispatch_res behavior p t (computeSubSet c.subscriptions p.keys)]

theorem publish_invoked_eq (behavior : Nat → parameter → Nat → Except DdsError result)
    (c : context) (p : parameter) (t : Nat) (hmap : p.is_map = true) :
    (publish behavior c p t).invoked = subscriberSet c p := by
  simp [publish, hmap, subscriberSet,
    foldl_dispatch_invoked behavior p t (computeSubSet c.subscriptions p.keys)]

theorem publish_diags_eq (behavior : Nat → parameter → Nat → Except DdsError result)
    (c : context) (p : parameter) (t : Nat) (hmap : p.is_map = true) :
    (publish behavior c p t).diags
      = errorsOf behavior (subscriberSet c p) p t := by
  simp [publish, hmap, subscriberSet,
    foldl_dispatch_diags behavior p t (computeSubSet c.subscriptions p.keys)]

/-- C1: for every publish call on a map-shaped batch, the returned Result
is the fold of the successful listener results that keeps the one with
the highest severity, with first-seen tie-break: the aggregate's severity
is the maximum collected severity, and whenever some successful result
has severity above the default, the aggregate is the first collected
result attaining that maximum (a later equal-severity result never
replaces an earlier one).  In particular, over two results where only the
first (resp. second) has positive severity the first (resp. second) is
returned, over two results of different severities the higher one is
returned, and an equal-severity tie keeps the first. -/
theorem publish_keeps_highest_severity_first_seen
    (behavior : Nat → parameter → Nat → Except DdsError result)
    (c : context) (p : parameter) (t : Nat) (hmap : p.is_map = true) :
    (publish behavior c p t).res
        = .ok (aggregateResults (okResults behavior (subscriberSet c p) p t))
    ∧ (aggregateResults (okResults behavior (subscriberSet c p) p t)).value
        = maxValue (okResults behavior (subscriberSet c p) p t)
    ∧ ((∃ r ∈ okResults behavior (subscriberSet c p) p t, 0 < r.value) →
        (okResults behavior (subscriberSet c p) p t).find?
            (fun r => r.value ==
              (aggregateResults (okResults behavior (subscriberSet c p) p t)).value)
          = some (aggregateResults (okResults behavior (subscriberSet c p) p t)))
    ∧ (∀ r1 r2 : result, 0 < r1.value → r2.value = 0 →
        aggregateResults [r1, r2] = r1 ∧ aggregateResults [r2, r1] = r1)
    ∧ (∀ r1 r2 : result, r1.value < r2.value →
        aggregateResults [r1, r2] = r2 ∧ aggregateResults [r2, r1] = r2)
    ∧ (∀ r1 r2 : result, r1.value = r2.value → 0 < r1.value →
        aggregateResults [r1, r2] = r1) := by
  refine ⟨publish_res_eq behavior c p t hmap, ?_, ?_, ?_, ?_, ?_⟩
  · simpa [aggregateResults, maxValue] using
      foldl_keepHigher_value (okResults behavior (subscriberSet c p) p t) ⟨0, []⟩
  · intro hex
    exact foldl_keepHigher_find _ ⟨0, []⟩ (by simpa using hex)
  · intro r1 r2 h1 h2
    have hn : ¬ r1.value < r2.value := by omega
    constructor
    · simp [aggregateResults, keepHigher, h1, hn]
    · simp [aggregateResults, keepHigher, h1, h2]
  · intro r1 r2 h
    have h2 : 0 < r2.value := by omega
    have hn : ¬ r2.value < r1.value := by omega
    constructor
    · by_cases h0 : 0 < r1.value
      · simp [aggregateResults, keepHigher, h0, h]
      · have h1z : ¬ (0 < r1.value) := h0
        simp [aggregateResults, keepHigher, h1z, h2]
    · simp [aggregateResults, keepHigher, h2, hn]
  · intro r1 r2 heq h0
    have hn : ¬ r1.value < r2.value := by omega
    simp [aggregateResults, keepHigher, h0, hn]

/-- C1 witness: two subscribers registered under `k`, subscriber 1 with
severity 2 and subscriber 2 with severity 1; publish returns the
aggregate, which is subscriber 1's higher-severity result. -/
theorem publish_keeps_highest_severity_first_seen_witness :
    parameter.is_map pK = true
    ∧ (publish bhvTwoSev ctxTwo pK 0).res
        = .ok (aggregateResults (okResults bhvTwoSev (subscriberSet ctxTwo pK) pK 0))
    ∧ (publish bhvTwoSev ctxTwo pK 0).res = .ok ⟨2, ["a"]⟩ :=
  ⟨rfl,
   (publish_keeps_highest_severity_first_seen bhvTwoSev ctxTwo pK 0 rfl).1,
   rfl⟩

/-- C2: when a publish call dispatches to two or more subscribers and one
of their listeners throws, the error never aborts dispatch (every
subscriber of the deduplicated set is still invoked, in order), is never
propagated (the call returns an ok aggregate built only from the
successful results) and is recorded as a diagnostic. -/
theorem publish_isolates_subscriber_failures
    (behavior : Nat → parameter → Nat → Except DdsError result)
    (c : context) (p : parameter) (t s : Nat) (e : DdsError)
    (hmap : p.is_map = true)
    (_htwo : 2 ≤ (subscriberSet c p).length)
    (hmem : s ∈ subscriberSet c p)
    (herr : behavior s p t = .error e) :
    (publish behavior c p t).invoked = subscriberSet c p
    ∧ (publish behavior c p t).res
        = .ok (aggregateResults (okResults behavior (subscriberSet c p) p t))
    ∧ e ∈ (publish behavior c p t).diags := by
  refine ⟨publish_invoked_eq behavior c p t hmap,
    publish_res_eq behavior c p t hmap, ?_⟩
  rw [publish_diags_eq behavior c p t hmap]
  unfold errorsOf
  exact List.mem_filterMap.mpr ⟨s, hmem, by simp [herr]⟩

/-- C2 witness: two subscribers under `k`; subscriber 1 throws a runtime
error, subscriber 2 returns a severity-2 result; both are invoked, the
error is recorded and the returned result is subscriber 2's. -/
theorem publish_isolates_subscriber_failures_witness :
    parameter.is_map pK = true
    ∧ 2 ≤ (subscriberSet ctxTwo pK).length
    ∧ 1 ∈ subscriberSet ctxTwo pK
    ∧ bhvFail 1 pK 0 = .error (.runtime_error "boom")
    ∧ (publish bhvFail ctxTwo pK 0).invoked = subscriberSet ctxTwo pK
    ∧ (publish bhvFail ctxTwo pK 0).res
        = .ok (aggregateResults (okResults bhvFail (subscriberSet ctxTwo pK) pK 0))
    ∧ DdsError.runtime_error "boom" ∈ (publish bhvFail ctxTwo pK 0).diags :=
  have h := publish_isolates_subscriber_failures bhvFail ctxTwo pK 0 1
    (.runtime_error "boom") rfl (by decide) (by decide) rfl
  ⟨rfl, by decide, by decide, rfl, h.1, h.2.1, h.2.2⟩

/-- C3: publishing a non-map parameter tree fails with
`invalid_object(".", "not a map")` for every subscription table, and does
so before any listener is created (the cache is untouched) or invoked. -/
theorem publish_rejects_non_map
    (behavior : Nat → parameter → Nat → Except DdsError result)
    (c : context) (p : parameter) (t : Nat) (hmap : p.is_map = false) :
    (publish behavior c p t).res = .error (.invalid_object "." "not a map")
    ∧ (publish behavior c p t).ctx.listeners = c.listeners
    ∧ (publish behavior c p t).invoked = [] := by
  simp [publish, hmap]

/-- C3 witness: publishing the scalar `"x"` into a context with two
subscribers fails with the invalid-object error, creating and invoking no
listener. -/
theorem publish_rejects_non_map_witness :
    parameter.is_map (parameter.str "x") = false
    ∧ (publish bhvOne ctxTwo (parameter.str "x") 0).res
        = .error (.invalid_object "." "not a map")
    ∧ (publish bhvOne ctxTwo (parameter.str "x") 0).ctx.listeners = ctxTwo.listeners
    ∧ (publish bhvOne ctxTwo (parameter.str "x") 0).invoked = [] :=
  have h := publish_rejects_non_map bhvOne ctxTwo (parameter.str "x") 0 rfl
  ⟨rfl, h.1, h.2.1, h.2.2⟩

/-- C4 counterexample: publishing a non-map batch fails with the
invalid-object error, yet the batch has nevertheless been appended to the
context's retained list — the retained-batches list is not left
unchanged on error. -/
theorem publish_retains_batch_on_error_cex :
    (publish bhvOne ctxEmpty (parameter.str "x") 0).res
        = .error (.invalid_object "." "not a map")
    ∧ (publish bhvOne ctxEmpty (parameter.str "x") 0).ctx.prev_published_params
        = [parameter.str "x"]
    ∧ ctxEmpty.prev_published_params = []
    ∧ (publish bhvOne ctxEmpty (parameter.str "x") 0).ctx.prev_published_params
        ≠ ctxEmpty.prev_published_params := by
  refine ⟨rfl, rfl, rfl, ?_⟩
  show [parameter.str "x"] ≠ []
  simp

/-- C4 amended: `publish` takes ownership of the batch unconditionally —
it is appended to the retained-batches list before validation, so even
when the call fails with `invalid_object` because the data is not a map,
the context has accepted and retained the data. -/
theorem publish_takes_ownership_unconditionally
    (behavior : Nat → parameter → Nat → Except DdsError result)
    (c : context) (p : parameter) (t : Nat) :
    (publish behavior c p t).ctx.prev_published_params
        = c.prev_published_params ++ [p]
    ∧ (p.is_map = false →
        (publish behavior c p t).res = .error (.invalid_object "." "not a map")) := by
  constructor
  · by_cases hmap : p.is_map <;> simp [publish, hmap]
  · intro hmap; simp [publish, hmap]

/-- C4 amended witness: the failing non-map publish still appends the
batch to the retained list. -/
theorem publish_takes_ownership_unconditionally_witness :
    (publish bhvOne ctxEmpty (parameter.str "x") 0).ctx.prev_published_params
        = ctxEmpty.prev_published_params ++ [parameter.str "x"]
    ∧ parameter.is_map (parameter.str "x") = false
    ∧ (publish bhvOne ctxEmpty (parameter.str "x") 0).res
        = .error (.invalid_object "." "not a map") :=
  have h := publish_takes_ownership_unconditionally bhvOne ctxEmpty (parameter.str "x") 0
  ⟨h.1, rfl, h.2 rfl⟩

/-- C5 counterexample: with two subscribers under `k` where subscriber 1
times out and subscriber 2 returns a severity-1 result, publish returns
exactly subscriber 2's result — identical to the run where subscriber 1
returns an empty result instead of timing out — so the timeout is not
reported to the caller as part of the returned Result; it is only logged
as a diagnostic. -/
theorem publish_suppresses_timeout_cex :
    (publish bhvT ctxTwo pK 9).res = .ok ⟨1, ["r2"]⟩
    ∧ (publish bhvT ctxTwo pK 9).res = (publish bhvN ctxTwo pK 9).res
    ∧ (publish bhvT ctxTwo pK 9).diags = [DdsError.timeout_error] :=
  ⟨rfl, rfl, rfl⟩

/-- C5 amended: a `timeout_error` thrown by one subscriber's listener is
caught by the context like any other subscriber failure: it is recorded
as a diagnostic, dispatch continues (every subscriber of the deduplicated
set is invoked) and the caller receives the ok aggregate of the remaining
successful results, with no trace of the timeout in the returned Result. -/
theorem publish_catches_timeout_and_continues
    (behavior : Nat → parameter → Nat → Except DdsError result)
    (c : context) (p : parameter) (t s : Nat)
    (hmap : p.is_map = true) (hmem : s ∈ subscriberSet c p)
    (ht : behavior s p t = .error .timeout_error) :
    (publish behavior c p t).res
        = .ok (aggregateResults (okResults behavior (subscriberSet c p) p t))
    ∧ DdsError.timeout_error ∈ (publish behavior c p t).diags
    ∧ (publish behavior c p t).invoked = subscriberSet c p := by
  refine ⟨publish_res_eq behavior c p t hmap, ?_,
    publish_invoked_eq behavior c p t hmap⟩
  rw [publish_diags_eq behavior c p t hmap]
  unfold errorsOf
  exact List.mem_filterMap.mpr ⟨s, hmem, by simp [ht]⟩

/-- C5 amended witness: subscriber 1 times out, the diagnostic is
recorded, and the returned result is the aggregate of the others. -/
theorem publish_catches_timeout_and_continues_witness :
    parameter.is_map pK = true
    ∧ 1 ∈ subscriberSet ctxTwo pK
    ∧ bhvT 1 pK 9 = .error .timeout_error
    ∧ (publish bhvT ctxTwo pK 9).res
        = .ok (aggregateResults (okResults bhvT (subscriberSet ctxTwo pK) pK 9))
    ∧ DdsError.timeout_error ∈ (publish bhvT ctxTwo pK 9).diags :=
  have h := publish_catches_timeout_and_continues bhvT ctxTwo pK 9 1 rfl (by decide) rfl
  ⟨rfl, by decide, rfl, h.1, h.2.1⟩

/-!
The deduplicated subscriber set is strictly sorted by identity, hence
duplicate-free: a subscriber is dispatched at most once per publish call
no matter how often it was registered.
-/

theorem setInsert_mem (x z : Nat) :
    ∀ l : List Nat, z ∈ setInsert x l → z = x ∨ z ∈ l := by
  intro l
  induction l with
  | nil => intro h; simp [setInsert] at h; exact Or.inl h
  | cons y ys ih =>
      intro h
      by_cases h1 : x < y
      · simp only [setInsert, if_pos h1, List.mem_cons] at h
        rcases h with h | h | h
        · exact Or.inl h
        · exact Or.inr (by simp [h])
        · exact Or.inr (List.mem_cons_of_mem y h)
      · by_cases h2 : x = y
        · simp only [setInsert, if_neg h1, if_pos h2] at h
          exact Or.inr h
        · simp only [setInsert, if_neg h1, if_neg h2, List.mem_cons] at h
          rcases h with h | h
          · exact Or.inr (by simp [h])
          · rcases ih h with h | h
            · exact Or.inl h
            · exact Or.inr (List.mem_cons_of_mem y h)

theorem setInsert_sorted (x : Nat) :
    ∀ l : List Nat, l.Sorted (· < ·) → (setInsert x l).Sorted (· < ·) := by
  intro l
  induction l with
  | nil => intro _; simp [setInsert]
  | cons y ys ih =>
      intro hs
      rw [List.sorted_cons] at hs
      obtain ⟨hy, hys⟩ := hs
      by_cases h1 : x < y
      · simp only [setInsert, if_pos h1]
        rw [List.sorted_cons]
        refine ⟨?_, by rw [List.sorted_cons]; exact ⟨hy, hys⟩⟩
        intro b hb
        rcases List.mem_cons.mp hb with rfl | hb
        · exact h1
        · exact lt_trans h1 (hy b hb)
      · by_cases h2 : x = y
        · simp only [setInsert, if_neg h1, if_pos h2]
          rw [List.sorted_cons]; exact ⟨hy, hys⟩
        · simp only [setInsert, if_neg h1, if_neg h2]
          rw [List.sorted_cons]
          refine ⟨?_, ih hys⟩
          intro b hb
          rcases setInsert_mem x b ys hb with rfl | hb
          · omega
          · exact hy b hb

theorem foldl_setInsert_sorted :
    ∀ (l : List Nat) (acc : List Nat), acc.Sorted (· < ·) →
      (l.foldl (fun a s => setInsert s a) acc).Sorted (· < ·) := by
  intro l
  induction l with
  | nil => intro acc h; exact h
  | cons s ss ih =>
      intro acc h
      rw [List.foldl_cons]
      exact ih _ (setInsert_sorted s acc h)

theorem computeSubSet_sorted (subs : List (String × List Nat)) :
    ∀ (keys : List String) (acc : List Nat), acc.Sorted (· < ·) →
      (keys.foldl
        (fun acc k =>
          match lookupTable subs k with
          | none => acc
          | some l => l.foldl (fun a s => setInsert s a) acc) acc).Sorted (· < ·) := by
  intro keys
  induction keys with
  | nil => intro acc h; exact h
  | cons k ks ih =>
      intro acc h
      rw [List.foldl_cons]
      cases hl : lookupTable subs k with
      | none => simpa [hl] using ih acc h
      | some l => simpa [hl] using ih _ (foldl_setInsert_sorted l acc h)

theorem computeSubSet_count_le_one
    (subs : List (String × List Nat)) (keys : List String) (s : Nat) :
    List.count s (computeSubSet subs keys) ≤ 1 := by
  have hsorted : (computeSubSet subs keys).Sorted (· < ·) :=
    computeSubSet_sorted subs keys [] (by simp)
  exact List.nodup_iff_count_le_one.mp hsorted.nodup s

/-- C6 counterexample: registering subscriber 7 twice under address `k`
leaves it twice in the subscription table, yet a publish whose batch
contains `k` dispatches to it exactly once, not once per registration. -/
theorem duplicate_registration_single_dispatch_cex :
    (subscribe (subscribe ⟨[]⟩ 7 ["k"]) 7 ["k"]).subscriptions = [("k", [7, 7])]
    ∧ (publish bhvOne (subscribe (subscribe ⟨[]⟩ 7 ["k"]) 7 ["k"]).create_context
        pK 0).invoked = [7]
    ∧ (publish bhvOne (subscribe (subscribe ⟨[]⟩ 7 ["k"]) 7 ["k"]).create_context
        pK 0).invoked ≠ [7, 7] := by
  refine ⟨rfl, rfl, ?_⟩
  decide

/-- C6 amended: duplicate registration duplicates the subscription-table
entry, but `publish` deduplicates subscribers through the identity set,
so each subscriber is dispatched at most once per publish call regardless
of how many times it was registered (and in the concrete double
registration of subscriber 7 under `k`, exactly once). -/
theorem subscriber_dispatch_deduplicated :
    (∀ (subs : List (String × List Nat)) (keys : List String) (s : Nat),
        List.count s (computeSubSet subs keys) ≤ 1)
    ∧ (∀ (behavior : Nat → parameter → Nat → Except DdsError result)
        (c : context) (p : parameter) (t s : Nat),
        List.count s (publish behavior c p t).invoked ≤ 1)
    ∧ (subscribe (subscribe ⟨[]⟩ 7 ["k"]) 7 ["k"]).subscriptions = [("k", [7, 7])]
    ∧ (publish bhvOne (subscribe (subscribe ⟨[]⟩ 7 ["k"]) 7 ["k"]).create_context
        pK 0).invoked = [7] := by
  refine ⟨computeSubSet_count_le_one, ?_, rfl, rfl⟩
  intro behavior c p t s
  by_cases hmap : p.is_map
  · rw [publish_invoked_eq behavior c p t hmap]
    exact computeSubSet_count_le_one c.subscriptions p.keys s
  · simp [publish, hmap]

theorem foldl_lookup_none (subs : List (String × List Nat)) :
    ∀ (keys : List String) (acc : List Nat),
      (∀ k ∈ keys, lookupTable subs k = none) →
      keys.foldl
        (fun acc k =>
          match lookupTable subs k with
          | none => acc
          | some l => l.foldl (fun a s => setInsert s a) acc) acc = acc := by
  intro keys
  induction keys with
  | nil => intro acc _; rfl
  | cons k ks ih =>
      intro acc h
      rw [List.foldl_cons]
      have hk : lookupTable subs k = none := h k (List.mem_cons_self k ks)
      simp only [hk]
      exact ih acc (fun x hx => h x (List.mem_cons_of_mem k hx))

/-- C10: publishing a valid map none of whose top-level keys has a
subscription succeeds with the default result (severity 0, no data),
invoking no listener and creating none. -/
theorem publish_unsubscribed_keys_default
    (behavior : Nat → parameter → Nat → Except DdsError result)
    (c : context) (p : parameter) (t : Nat)
    (hmap : p.is_map = true)
    (hnone : ∀ k ∈ p.keys, lookupTable c.subscriptions k = none) :
    (publish behavior c p t).res = .ok ⟨0, []⟩
    ∧ (publish behavior c p t).invoked = []
    ∧ (publish behavior c p t).ctx.listeners = c.listeners := by
  have hsub : computeSubSet c.subscriptions p.keys = [] :=
    foldl_lookup_none c.subscriptions p.keys [] hnone
  simp [publish, hmap, computeSubSet] at hsub ⊢
  simp [hsub]

/-- C10 witness: a context subscribed only under `a` receiving the map
`{"b": "v"}` returns the default result and touches no listener. -/
theorem publish_unsubscribed_keys_default_witness :
    parameter.is_map pB = true
    ∧ (∀ k ∈ pB.keys, lookupTable ctxA.subscriptions k = none)
    ∧ (publish bhvOne ctxA pB 0).res = .ok ⟨0, []⟩
    ∧ (publish bhvOne ctxA pB 0).invoked = []
    ∧ (publish bhvOne ctxA pB 0).ctx.listeners = ctxA.listeners :=
  have h := publish_unsubscribed_keys_default bhvOne ctxA pB 0 rfl (by decide)
  ⟨rfl, by decide, h.1, h.2.1, h.2.2⟩

/-!
The per-key default merge of action parameters: a key supplied by the
action entry wins, an unspecified key keeps its default.
-/

theorem lookupTable_append {α : Type} (xs ys : List (String × α)) (k : String) :
    lookupTable (xs ++ ys) k
      = match lookupTable xs k with
        | some v => some v
        | none => lookupTable ys k := by
  induction xs with
  | nil => simp [lookupTable]
  | cons e xs ih =>
      obtain ⟨k0, v0⟩ := e
      by_cases h : k0 = k <;> simp [lookupTable, h, ih]

theorem lookupTable_map_merge (defaults ps : List (String × String)) (k : String) :
    lookupTable (defaults.map (fun d => (d.1, (lookupTable ps d.1).getD d.2))) k
      = (lookupTable defaults k).map (fun d => (lookupTable ps k).getD d) := by
  induction defaults with
  | nil => simp [lookupTable]
  | cons e ds ih =>
      obtain ⟨k0, v0⟩ := e
      by_cases h : k0 = k
      · subst h; simp [lookupTable]
      · simp [lookupTable, h, ih]

theorem lookupTable_filter_not_default
    (defaults : List (String × String)) (k : String)
    (hd : lookupTable defaults k = none) :
    ∀ ps : List (String × String),
      lookupTable (ps.filter (fun o => (lookupTable defaults o.1).isNone)) k
        = lookupTable ps k := by
  intro ps
  induction ps with
  | nil => simp
  | cons e ps ih =>
      obtain ⟨k0, v0⟩ := e
      by_cases hk : k0 = k
      · subst hk
        simp [List.filter_cons, hd, lookupTable]
      · cases hlook : (lookupTable defaults k0).isNone <;>
          simp [List.filter_cons, hlook, lookupTable, hk, ih]

theorem mergeParams_lookup (defaults ps : List (String × String)) (k : String) :
    lookupTable (mergeParams defaults ps) k
      = match lookupTable ps k with
        | some v => some v
        | none => lookupTable defaults k := by
  unfold mergeParams
  rw [lookupTable_append, lookupTable_map_merge]
  cases hd : lookupTable defaults k with
  | some d =>
      cases hp : lookupTable ps k <;> simp [hp]
  | none =>
      rw [lookupTable_filter_not_default defaults k hd ps]
      cases hp : lookupTable ps k <;> simp [hp]

/-- C7: the update round-trip of the WAF model — the subscriber built
from the `blocked_ips` ruleset does not match `192.168.1.1` before
`update`; after `update` with the rule-data document adding that IP with
a future expiration, the same input matches and yields a block action
with the default parameters status_code=403, grpc_status_code=10,
type=auto; a `block_request` action entry's own parameters override the
defaults per key (custom entry: 123/321/json plus the extra key kept)
while an entry with no parameters keeps every default, and in general a
merged parameter reads as the entry's value when supplied and the default
otherwise. -/
theorem waf_update_round_trip :
    wafCall wafWithData 0 ipBatch = ⟨[], []⟩
    ∧ wafUpdate wafWithData updateDoc = .ok wafUpdated
    ∧ wafCall wafUpdated 0 ipBatch
        = ⟨[["192.168.1.1"]],
           [⟨.block, [("status_code", "403"), ("grpc_status_code", "10"),
                      ("type", "auto")]⟩]⟩
    ∧ wafCall wafCustom 0 ipBatch
        = ⟨[["192.168.1.1"]],
           [⟨.block, [("status_code", "123"), ("grpc_status_code", "321"),
                      ("type", "json"), ("custom_param", "foo")]⟩]⟩
    ∧ wafCall wafCustomNoParams 0 ipBatch
        = ⟨[["192.168.1.1"]],
           [⟨.block, [("status_code", "403"), ("grpc_status_code", "10"),
                      ("type", "auto")]⟩]⟩
    ∧ (∀ (ps : List (String × String)) (k : String),
        lookupTable (mergeParams blockDefaults ps) k
          = match lookupTable ps k with
            | some v => some v
            | none => lookupTable blockDefaults k) :=
  ⟨rfl, rfl, rfl, rfl, rfl, fun ps k => mergeParams_lookup blockDefaults ps k⟩

/-- C8: an update document of the wrong shape — any map missing the
`rules_data` key (in particular the empty object) or a non-map — makes
`update` fail with `invalid_object` and produce no new instance, and the
original instance still evaluates calls against its unchanged snapshot
(the updated `blocked_ips` instance still matches and blocks after a
failed update). -/
theorem waf_update_invalid_input
    (inst : WafInstance) (entries : List (String × parameter)) (s : String)
    (hmiss : lookupTable entries "rules_data" = none) :
    wafUpdate inst (.map entries) = .error (.invalid_object "." "invalid rules_data")
    ∧ wafUpdate inst (.str s) = .error (.invalid_object "." "not a map")
    ∧ wafUpdate wafUpdated (.map []) = .error (.invalid_object "." "invalid rules_data")
    ∧ wafCall wafUpdated 0 ipBatch
        = ⟨[["192.168.1.1"]],
           [⟨.block, [("status_code", "403"), ("grpc_status_code", "10"),
                      ("type", "auto")]⟩]⟩ := by
  refine ⟨?_, rfl, rfl, rfl⟩
  simp [wafUpdate, hmiss]

/-- C8 witness: the empty object fails the update of the `blocked_ips`
instance, which keeps functioning. -/
theorem waf_update_invalid_input_witness :
    lookupTable ([] : List (String × parameter)) "rules_data" = none
    ∧ wafUpdate wafUpdated (.map []) = .error (.invalid_object "." "invalid rules_data")
    ∧ wafUpdate wafUpdated (.str "x") = .error (.invalid_object "." "not a map")
    ∧ wafCall wafUpdated 0 ipBatch
        = ⟨[["192.168.1.1"]],
           [⟨.block, [("status_code", "403"), ("grpc_status_code", "10"),
                      ("type", "auto")]⟩]⟩ :=
  have h := waf_update_invalid_input wafUpdated [] "x" rfl
  ⟨rfl, h.1, h.2.1, h.2.2.2⟩

/-- C9: a matched value whose originating key or whose content matches
the configured obfuscation pattern is serialized as the fixed redaction
placeholder, never as the literal input; in particular publishing
`{"arg1": {"password": "string 1"}, "arg2": "string 3"}` against the
obfuscating ruleset yields one match document whose two serialized
parameter values are both the placeholder. -/
theorem waf_obfuscates_matched_values (ob : Obfuscator) (k v : String)
    (h : optMatches ob.keyPat k = true ∨ optMatches ob.valPat v = true) :
    obfuscateValue ob k v = redactedMarker
    ∧ wafCall obfWaf 0 obfInput = ⟨[[redactedMarker, redactedMarker]], []⟩ := by
  constructor
  · unfold obfuscateValue
    rcases h with h | h <;> simp [h]
  · rfl

/-- C9 witness: the key `password` matches the key pattern, so the value
`string 1` is redacted, and the concrete obfuscated run yields two
placeholder values. -/
theorem waf_obfuscates_matched_values_witness :
    (optMatches obfWaf.obfuscator.keyPat "password" = true
      ∨ optMatches obfWaf.obfuscator.valPat "string 1" = true)
    ∧ obfuscateValue obfWaf.obfuscator "password" "string 1" = redactedMarker
    ∧ wafCall obfWaf 0 obfInput = ⟨[[redactedMarker, redactedMarker]], []⟩ :=
  have h := waf_obfuscates_matched_values obfWaf.obfuscator "password" "string 1"
    (Or.inl (by decide))
  ⟨Or.inl (by decide), h.1, h.2⟩

end dds
